import Mathlib

/-!
Shallow embedding of `src/precompiles/src/anon/deposit.rs` from the
orange-op-geth precompiles crate: the anonymous-deposit batch verifier
(`Deposit::new`, `Deposit::require`, `Deposit::check`, `Deposit::gas`,
`verify_ttoa`, `DEPOSIT_VERIFY_PER_GAS`).

Modelling conventions:
- machine bytes are `Nat` values, byte strings are `List Nat`;
- `U256` values are `Nat` (decoded ABI words are below `2 ^ 256`);
- a Rust `Result<T, Error>` is `Except Error T`;
- a Rust panic is modelled as `Option.none` wrapped around the result of
  the computation that may panic (`U256::as_u128` panics on values not
  fitting 128 bits, and that panic propagates through the rayon
  `collect` in `Deposit::check`);
- the external collaborators (the `ethabi` decoder, `BN254Scalar::from_bytes`,
  `bincode::deserialize`, `utils::bytes_asset`, `AxfrOwnerMemo::from_bytes`,
  and the oracle `verify_ar_to_abar_note`) are opaque: they are passed in as
  explicit function parameters, so every theorem quantifies over their
  behaviour. The Sha3-512 hasher seeded with `bindingHash_i` is absorbed
  into the oracle parameter: the oracle receives the 32-byte seed itself.
-/

set_option autoImplicit false
set_option linter.unusedVariables false

/-- Error taxonomy of the precompiles crate, as used by `deposit.rs`
(`Error::ParseDataFailed`, `Error::WrongLengthOfArguments`,
`Error::ProofDecodeFailed`, `Error::ProofVerificationFailed`); the
asset-decode failure kind of `utils::bytes_asset` is included from the
spec taxonomy in section 7. -/
inductive Error where
  | ParseDataFailed
  | WrongLengthOfArguments
  | AssetDecodeFailed
  | ProofDecodeFailed
  | ProofVerificationFailed
  deriving DecidableEq, Repr

/-- Byte strings of the wire format. -/
abbrev Bytes := List Nat

/-- The subset of `ethabi::ParamType` used by `Deposit::params_type`. -/
inductive ParamType where
  | fixedBytes (n : Nat)
  | uint (n : Nat)
  | bytes
  | array (inner : ParamType)
  deriving DecidableEq, Repr

/-- The subset of `ethabi::Token` values the decoder can return for the
requested schema, plus a constructor `other` standing for every token kind
of the library that the conversions reject. -/
inductive Token where
  | fixedBytes (bs : Bytes)
  | uint (v : Nat)
  | bytes (bs : Bytes)
  | array (ts : List Token)
  | other
  deriving Repr

/-- The decoded batch, mirroring `struct Deposit` field for field. -/
structure Deposit where
  outputs : List Bytes
  assets : List Bytes
  amounts : List Nat
  proofs : List Bytes
  memos : List Bytes
  hash : List Bytes
  deriving DecidableEq, Repr

/-- Mirrors `Deposit::params_type`: the six-element ABI schema
`(bytes32[], bytes32[], uint256[], bytes[], bytes[], bytes32[])`. -/
def Deposit.params_type : List ParamType :=
  [ParamType.array (ParamType.fixedBytes 32),
   ParamType.array (ParamType.fixedBytes 32),
   ParamType.array (ParamType.uint 256),
   ParamType.array ParamType.bytes,
   ParamType.array ParamType.bytes,
   ParamType.array (ParamType.fixedBytes 32)]

/-- Computation rule for the `Except` monad bind on a success value. -/
@[simp]
theorem exceptOkBind {α β : Type} (a : α) (f : α → Except Error β) :
    (Except.ok a : Except Error α) >>= f = f a := rfl

/-- Computation rule for the `Except` monad bind on an error value. -/
@[simp]
theorem exceptErrorBind {α β : Type} (e : Error) (f : α → Except Error β) :
    (Except.error e : Except Error α) >>= f = Except.error e := rfl

/-- Structural element-wise conversion with failure, used by the three
`into_*_array` conversions below. -/
def mapExcept {α β : Type} (f : α → Except Error β) : List α → Except Error (List β)
  | [] => Except.ok []
  | a :: as => do
      let b ← f a
      let bs ← mapExcept f as
      Except.ok (b :: bs)

/-- Element conversion of `into_bytes32_array`: a fixed-bytes token of
length exactly 32, anything else is a `ParseError`. -/
def bytes32Elem : Token → Except Error Bytes
  | Token.fixedBytes bs =>
      if bs.length = 32 then Except.ok bs else Except.error Error.ParseDataFailed
  | _ => Except.error Error.ParseDataFailed

/-- Element conversion of `into_uint256_array`: a wide unsigned integer
token, anything else is a `ParseError`. -/
def uintElem : Token → Except Error Nat
  | Token.uint v => Except.ok v
  | _ => Except.error Error.ParseDataFailed

/-- Element conversion of `into_bytes_array`: an opaque byte-blob token,
anything else is a `ParseError`. -/
def bytesElem : Token → Except Error Bytes
  | Token.bytes bs => Except.ok bs
  | _ => Except.error Error.ParseDataFailed

/-- Modelled from the spec: `utils::into_bytes32_array` (the crate `utils`
module is not part of this slice). Converts one decoded generic element
into a vector of fixed 32-byte digests; any shape mismatch is a
conversion failure yielding `ParseError` (section 4.1). -/
def into_bytes32_array (t : Option Token) : Except Error (List Bytes) :=
  match t with
  | some (Token.array ts) => mapExcept bytes32Elem ts
  | _ => Except.error Error.ParseDataFailed

/-- Modelled from the spec: `utils::into_uint256_array`. Converts one
decoded generic element into a vector of wide unsigned integers; any
shape mismatch yields `ParseError` (section 4.1). -/
def into_uint256_array (t : Option Token) : Except Error (List Nat) :=
  match t with
  | some (Token.array ts) => mapExcept uintElem ts
  | _ => Except.error Error.ParseDataFailed

/-- Modelled from the spec: `utils::into_bytes_array`. Converts one
decoded generic element into a vector of opaque byte blobs; any shape
mismatch yields `ParseError` (section 4.1). -/
def into_bytes_array (t : Option Token) : Except Error (List Bytes) :=
  match t with
  | some (Token.array ts) => mapExcept bytesElem ts
  | _ => Except.error Error.ParseDataFailed

/-- Mirrors `Deposit::require`: all six sequences must share the length of
`outputs`, else `Error::WrongLengthOfArguments`. -/
def Deposit.require (d : Deposit) : Except Error Unit :=
  let len := d.outputs.length
  if len = d.assets.length ∧ len = d.amounts.length ∧ len = d.proofs.length
      ∧ len = d.memos.length ∧ len = d.hash.length
  then Except.ok ()
  else Except.error Error.WrongLengthOfArguments

/-- The type of the opaque `ethabi::decode` collaborator: given the
requested schema and the input bytes it either returns a token list or
fails (`None` standing for any `ethabi::Error`, which `Deposit::new` maps
to `Error::ParseDataFailed`). -/
abbrev AbiDecoder := List ParamType → Bytes → Option (List Token)

/-- The decode stage of `Deposit::new` (lines 59 to 75): run the ABI
decoder against the schema and convert the six generic elements to their
concrete representations. The length validation of `require` is applied
afterwards by `Deposit.new`. -/
def Deposit.decodeBatch (abiDecode : AbiDecoder) (data : Bytes) : Except Error Deposit :=
  match abiDecode Deposit.params_type data with
  | none => Except.error Error.ParseDataFailed
  | some res => do
      let outputs ← into_bytes32_array (res.get? 0)
      let assets ← into_bytes32_array (res.get? 1)
      let amounts ← into_uint256_array (res.get? 2)
      let proofs ← into_bytes_array (res.get? 3)
      let memos ← into_bytes_array (res.get? 4)
      let hash ← into_bytes32_array (res.get? 5)
      Except.ok ⟨outputs, assets, amounts, proofs, memos, hash⟩

/-- Mirrors `Deposit::new`: decode, then the length validation. -/
def Deposit.new (abiDecode : AbiDecoder) (data : Bytes) : Except Error Deposit := do
  let r ← Deposit.decodeBatch abiDecode data
  r.require
  Except.ok r

/-- Mirrors `const DEPOSIT_VERIFY_PER_GAS: u64 = 50000`. -/
def DEPOSIT_VERIFY_PER_GAS : Nat := 50000

/-- Mirrors `Deposit::gas`: `DEPOSIT_VERIFY_PER_GAS * self.assets.len() as u64`,
with the `u64` width made explicit. -/
def Deposit.gas (d : Deposit) : Nat :=
  DEPOSIT_VERIFY_PER_GAS * d.assets.length % 2 ^ 64

/-- The opaque cryptographic collaborators of `verify_ttoa`, packaged as a
model: abstract carrier types for the external structures and abstract
functions for the external calls. `Option.none` on the two fallible
decoders stands for any error of the library call; `verifyNote` returning
`false` stands for an oracle rejection or any internal oracle fault.
`verifyNote` receives the raw 32-byte `bindingHash` seed in place of the
Sha3-512 hasher state built from it. -/
structure CryptoModel where
  Scalar : Type
  Proof : Type
  Asset : Type
  Memo : Type
  Params : Type
  scalarFromBytes : Bytes → Option Scalar
  proofDeserialize : Bytes → Option Proof
  bytesAsset : Bytes → Except Error Asset
  memoFromBytes : Bytes → Memo
  verifyNote : Params → Asset → Nat → Scalar → Proof → Memo → Bytes → Bool

/-- Mirrors `ArToAbarNote` as built inside `verify_ttoa` (asset, amount,
output commitment, proof, owner memo). -/
structure ArToAbarNote (C : CryptoModel) where
  asset : C.Asset
  amount : Nat
  output : C.Scalar
  proof : C.Proof
  memo : C.Memo

/-- Mirrors the call `verify_ar_to_abar_note(params, &note, hasher)`, with
the hasher replaced by its 32-byte seed. -/
def verify_ar_to_abar_note (C : CryptoModel) (params : C.Params) (note : ArToAbarNote C)
    (hashSeed : Bytes) : Bool :=
  C.verifyNote params note.asset note.amount note.output note.proof note.memo hashSeed

/-- Mirrors `verify_ttoa`: decode the commitment (`ParseDataFailed` on bad
bytes), deserialize the proof (`ProofDecodeFailed` on bad bytes), decode
the asset (error of `bytes_asset` propagated by `?`), build the note with
the empty-memo placeholder, and call the oracle (`ProofVerificationFailed`
on reject or internal fault). -/
def verify_ttoa (C : CryptoModel) (params : C.Params) (asset : Bytes) (amount : Nat)
    (commitment : Bytes) (proof : Bytes) (hash : Bytes) : Except Error Unit := do
  let output ← match C.scalarFromBytes commitment with
    | some s => Except.ok s
    | none => Except.error Error.ParseDataFailed
  let proofObj ← match C.proofDeserialize proof with
    | some p => Except.ok p
    | none => Except.error Error.ProofDecodeFailed
  let assetObj ← C.bytesAsset asset
  let note : ArToAbarNote C := ⟨assetObj, amount, output, proofObj, C.memoFromBytes []⟩
  if verify_ar_to_abar_note C params note hash then Except.ok ()
  else Except.error Error.ProofVerificationFailed

/-- Mirrors `U256::as_u128` of the `uint` crate: the value when it fits
128 bits, `none` for the explicit panic on larger values. -/
def U256.as_u128 (v : Nat) : Option Nat :=
  if v < 2 ^ 128 then some v else none

/-- One element of the zipped iterator of `Deposit::check`:
`((((output, asset), amount), proof), hash)`. Note that `memos` is not
part of the zip in the source. -/
abbrev Request := (((Bytes × Bytes) × Nat) × Bytes) × Bytes

/-- The zipped request sequence of `Deposit::check`:
`outputs.zip(assets).zip(amounts).zip(proofs).zip(hash)`. -/
def Deposit.requests (d : Deposit) : List Request :=
  (((d.outputs.zip d.assets).zip d.amounts).zip d.proofs).zip d.hash

/-- The body of the parallel map in `Deposit::check`:
`verify_ttoa(&PARAMS, asset, amount.as_u128(), &output, &proof, hash)`,
with `none` standing for the panic of `as_u128`. -/
def verifyRequest (C : CryptoModel) (params : C.Params) : Request → Option (Except Error Unit)
  | ((((output, asset), amount), proof), hash) =>
      (U256.as_u128 amount).map fun a => verify_ttoa C params asset a output proof hash

/-- Models the rayon `collect` over possibly panicking tasks: all tasks
are evaluated; if any panicked the whole collect panics (`none`). -/
def collectResults (f : Request → Option (Except Error Unit)) :
    List Request → Option (List (Except Error Unit))
  | [] => some []
  | r :: rs =>
      match f r, collectResults f rs with
      | some b, some bs => some (b :: bs)
      | _, _ => none

/-- Models the aggregation loop `for r in res { r? }; Ok(())`: the first
error of the collected results, in index order. -/
def firstError : List (Except Error Unit) → Except Error Unit
  | [] => Except.ok ()
  | Except.ok () :: rs => firstError rs
  | Except.error e :: _ => Except.error e

/-- Dispatch a request list: collect all task results, then return the
first error (outer `none` when any task panicked in `as_u128`). -/
def runChecks (C : CryptoModel) (params : C.Params) (l : List Request) :
    Option (Except Error Unit) :=
  match collectResults (verifyRequest C params) l with
  | none => none
  | some res => some (firstError res)

/-- Mirrors `Deposit::check`: map `verifyRequest` over the zipped request
sequence, collect, then aggregate with the first-error loop. -/
def Deposit.check (C : CryptoModel) (params : C.Params) (d : Deposit) :
    Option (Except Error Unit) :=
  runChecks C params d.requests

/-- The sequential reference semantics from the spec, sections 4.4 and 8:
evaluate `verify_one` for each request in index order, stopping at the
first failure; compared against the parallel `Deposit.check` in the
refinement theorem. -/
def checkSequential (C : CryptoModel) (params : C.Params) :
    List Request → Option (Except Error Unit)
  | [] => some (Except.ok ())
  | r :: rs =>
      match verifyRequest C params r with
      | none => none
      | some (Except.error e) => some (Except.error e)
      | some (Except.ok ()) => checkSequential C params rs

/-- A concrete instantiation of the opaque collaborators, used to evaluate
the model on concrete inputs: the empty byte string is an invalid
commitment encoding, the byte string `[0]` is an undeserializable proof,
the byte string `[1]` is an invalid asset encoding, and the oracle
rejects exactly the notes whose amount is `7`. -/
def testModel : CryptoModel where
  Scalar := Unit
  Proof := Unit
  Asset := Unit
  Memo := Unit
  Params := Unit
  scalarFromBytes := fun bs => if bs = [] then none else some ()
  proofDeserialize := fun bs => if bs = [0] then none else some ()
  bytesAsset := fun bs =>
    if bs = [1] then Except.error Error.AssetDecodeFailed else Except.ok ()
  memoFromBytes := fun _ => ()
  verifyNote := fun _ _ amount _ _ _ _ => decide (amount ≠ 7)

/-- A 32-byte all-zero word, used for concrete batches. -/
def zeroWord : Bytes := List.replicate 32 0

/-- A concrete ABI decoder returning a well-shaped single-request batch
whose amount is `2 ^ 128`, the smallest value not fitting `u128`. -/
def overflowAbi : AbiDecoder := fun _ _ =>
  some [Token.array [Token.fixedBytes zeroWord],
        Token.array [Token.fixedBytes zeroWord],
        Token.array [Token.uint (2 ^ 128)],
        Token.array [Token.bytes [2]],
        Token.array [Token.bytes [3]],
        Token.array [Token.fixedBytes zeroWord]]

/-- The batch decoded from `overflowAbi`. -/
def overflowBatch : Deposit :=
  ⟨[zeroWord], [zeroWord], [2 ^ 128], [[2]], [[3]], [zeroWord]⟩

theorem require_ok_iff (d : Deposit) :
    d.require = Except.ok () ↔
      (d.outputs.length = d.assets.length ∧ d.outputs.length = d.amounts.length
        ∧ d.outputs.length = d.proofs.length ∧ d.outputs.length = d.memos.length
        ∧ d.outputs.length = d.hash.length) := by
  simp only [Deposit.require]
  split <;> simp_all
  omega

theorem require_error_eq (d : Deposit) (e : Error) (h : d.require = Except.error e) :
    e = Error.WrongLengthOfArguments := by
  simp only [Deposit.require] at h
  split at h <;> simp_all

theorem collectResults_isSome {f : Request → Option (Except Error Unit)} {l : List Request}
    (hf : ∀ r ∈ l, f r ≠ none) : ∃ res, collectResults f l = some res := by
  induction l with
  | nil => exact ⟨[], rfl⟩
  | cons r rs ih =>
      obtain ⟨res, hres⟩ := ih fun x hx => hf x (List.mem_cons_of_mem r hx)
      cases hfr : f r with
      | none => exact absurd hfr (hf r (List.mem_cons_self r rs))
      | some b => exact ⟨b :: res, by simp [collectResults, hfr, hres]⟩

theorem collectResults_none_of_mem {f : Request → Option (Except Error Unit)}
    {l : List Request} (x : Request) (hx : x ∈ l) (hfx : f x = none) :
    collectResults f l = none := by
  induction l with
  | nil => cases hx
  | cons a as ih =>
      rcases List.mem_cons.mp hx with rfl | hx2
      · simp [collectResults, hfx]
      · cases hfa : f a <;> simp [collectResults, hfa, ih hx2]

theorem runChecks_ok_iff (C : CryptoModel) (params : C.Params) (l : List Request) :
    runChecks C params l = some (Except.ok ()) ↔
      ∀ r ∈ l, verifyRequest C params r = some (Except.ok ()) := by
  induction l with
  | nil => simp [runChecks, collectResults, firstError]
  | cons r rs ih =>
      simp only [List.mem_cons, forall_eq_or_imp]
      cases hfr : verifyRequest C params r with
      | none =>
          simp only [runChecks, collectResults, hfr]
          constructor
          · intro h; simp at h
          · rintro ⟨h1, -⟩; exact absurd h1 (by simp [hfr])
      | some b =>
          cases hcr : collectResults (verifyRequest C params) rs with
          | none =>
              simp only [runChecks, collectResults, hfr, hcr]
              constructor
              · intro h; simp at h
              · intro ⟨h1, h2⟩
                have : ∃ res, collectResults (verifyRequest C params) rs = some res :=
                  collectResults_isSome fun x hx => by simp [h2 x hx]
                simp [hcr] at this
          | some res =>
              simp only [runChecks, collectResults, hfr, hcr]
              have hrs : runChecks C params rs = some (firstError res) := by
                simp [runChecks, hcr]
              cases b with
              | error e =>
                  simp only [firstError]
                  constructor
                  · intro h; simp at h
                  · rintro ⟨h1, -⟩; simp [hfr] at h1
              | ok u =>
                  cases u
                  simp only [firstError]
                  constructor
                  · intro h
                    refine ⟨trivial, ?_⟩
                    have : runChecks C params rs = some (Except.ok ()) := by
                      rw [hrs]
                      simpa using h
                    exact fun x hx => (ih.mp this) x hx
                  · rintro ⟨-, h2⟩
                    have := ih.mpr h2
                    rw [hrs] at this
                    simpa using this

theorem runChecks_first_error (C : CryptoModel) (params : C.Params) (pre suf : List Request)
    (r : Request) (e : Error)
    (hpre : ∀ x ∈ pre, verifyRequest C params x = some (Except.ok ()))
    (hr : verifyRequest C params r = some (Except.error e))
    (hsuf : ∀ x ∈ suf, verifyRequest C params x ≠ none) :
    runChecks C params (pre ++ r :: suf) = some (Except.error e) := by
  induction pre with
  | nil =>
      obtain ⟨res, hres⟩ := collectResults_isSome hsuf
      simp [runChecks, collectResults, hr, hres, firstError]
  | cons x pre ih =>
      have hx : verifyRequest C params x = some (Except.ok ()) :=
        hpre x (List.mem_cons_self x _)
      have ihh := ih fun y hy => hpre y (List.mem_cons_of_mem x hy)
      cases hcr : collectResults (verifyRequest C params) (pre ++ r :: suf) with
      | none => simp [runChecks, hcr] at ihh
      | some res =>
          simp only [runChecks, hcr] at ihh
          simp only [Option.some_inj] at ihh
          simp [runChecks, collectResults, hx, hcr, firstError, ihh]

theorem runChecks_eq_sequential (C : CryptoModel) (params : C.Params) (l : List Request)
    (hl : ∀ r ∈ l, verifyRequest C params r ≠ none) :
    runChecks C params l = checkSequential C params l := by
  induction l with
  | nil => rfl
  | cons r rs ih =>
      have hr := hl r (List.mem_cons_self r rs)
      have hrs : ∀ x ∈ rs, verifyRequest C params x ≠ none := fun x hx =>
        hl x (List.mem_cons_of_mem r hx)
      obtain ⟨res, hres⟩ := collectResults_isSome hrs
      cases hfr : verifyRequest C params r with
      | none => exact absurd hfr hr
      | some b =>
          cases b with
          | error e => simp [runChecks, collectResults, checkSequential, hfr, hres, firstError]
          | ok u =>
              cases u
              have h2 := ih hrs
              simp only [checkSequential, hfr]
              rw [← h2]
              simp [runChecks, collectResults, hfr, hres, firstError]

theorem mem_amounts_of_mem_requests (d : Deposit) (output asset : Bytes) (amount : Nat)
    (proof hsh : Bytes) (hr : ((((output, asset), amount), proof), hsh) ∈ d.requests) :
    amount ∈ d.amounts := by
  unfold Deposit.requests at hr
  have h1 := (List.of_mem_zip hr).1
  have h2 := (List.of_mem_zip h1).1
  exact (List.of_mem_zip h2).2

theorem verifyRequest_ne_none_of_amounts (C : CryptoModel) (params : C.Params) (d : Deposit)
    (hamt : ∀ a ∈ d.amounts, a < 2 ^ 128) :
    ∀ r ∈ d.requests, verifyRequest C params r ≠ none := by
  intro r hr
  obtain ⟨⟨⟨⟨output, asset⟩, amount⟩, proof⟩, hsh⟩ := r
  have hm : amount ∈ d.amounts :=
    mem_amounts_of_mem_requests d output asset amount proof hsh hr
  have hlt : amount < 2 ^ 128 := hamt amount hm
  simp only [verifyRequest, U256.as_u128]
  rw [if_pos hlt]
  simp

theorem bytes32Elem_ok_or_parse (a : Token) :
    (∃ b, bytes32Elem a = Except.ok b) ∨ bytes32Elem a = Except.error Error.ParseDataFailed := by
  cases a with
  | fixedBytes bs =>
      by_cases h : bs.length = 32
      · exact Or.inl ⟨bs, by simp [bytes32Elem, h]⟩
      · exact Or.inr (by simp [bytes32Elem, h])
  | uint v => exact Or.inr rfl
  | bytes bs => exact Or.inr rfl
  | array ts => exact Or.inr rfl
  | other => exact Or.inr rfl

theorem uintElem_ok_or_parse (a : Token) :
    (∃ v, uintElem a = Except.ok v) ∨ uintElem a = Except.error Error.ParseDataFailed := by
  cases a with
  | uint v => exact Or.inl ⟨v, rfl⟩
  | fixedBytes bs => exact Or.inr rfl
  | bytes bs => exact Or.inr rfl
  | array ts => exact Or.inr rfl
  | other => exact Or.inr rfl

theorem bytesElem_ok_or_parse (a : Token) :
    (∃ b, bytesElem a = Except.ok b) ∨ bytesElem a = Except.error Error.ParseDataFailed := by
  cases a with
  | bytes bs => exact Or.inl ⟨bs, rfl⟩
  | fixedBytes bs => exact Or.inr rfl
  | uint v => exact Or.inr rfl
  | array ts => exact Or.inr rfl
  | other => exact Or.inr rfl

theorem mapExcept_ok_or_parse {α β : Type} (f : α → Except Error β)
    (hf : ∀ a, (∃ b, f a = Except.ok b) ∨ f a = Except.error Error.ParseDataFailed)
    (l : List α) :
    (∃ bs, mapExcept f l = Except.ok bs) ∨ mapExcept f l = Except.error Error.ParseDataFailed := by
  induction l with
  | nil => exact Or.inl ⟨[], rfl⟩
  | cons a as ih =>
      rcases hf a with ⟨b, hb⟩ | hb
      · rcases ih with ⟨bs, hbs⟩ | hbs
        · exact Or.inl ⟨b :: bs, by simp [mapExcept, hb, hbs]⟩
        · exact Or.inr (by simp [mapExcept, hb, hbs])
      · exact Or.inr (by simp [mapExcept, hb])

theorem into_bytes32_array_ok_or_parse (t : Option Token) :
    (∃ l, into_bytes32_array t = Except.ok l)
      ∨ into_bytes32_array t = Except.error Error.ParseDataFailed := by
  cases t with
  | none => exact Or.inr rfl
  | some tok =>
      cases tok with
      | array ts => exact mapExcept_ok_or_parse bytes32Elem bytes32Elem_ok_or_parse ts
      | fixedBytes bs => exact Or.inr rfl
      | uint v => exact Or.inr rfl
      | bytes bs => exact Or.inr rfl
      | other => exact Or.inr rfl

theorem into_uint256_array_ok_or_parse (t : Option Token) :
    (∃ l, into_uint256_array t = Except.ok l)
      ∨ into_uint256_array t = Except.error Error.ParseDataFailed := by
  cases t with
  | none => exact Or.inr rfl
  | some tok =>
      cases tok with
      | array ts => exact mapExcept_ok_or_parse uintElem uintElem_ok_or_parse ts
      | fixedBytes bs => exact Or.inr rfl
      | uint v => exact Or.inr rfl
      | bytes bs => exact Or.inr rfl
      | other => exact Or.inr rfl

theorem into_bytes_array_ok_or_parse (t : Option Token) :
    (∃ l, into_bytes_array t = Except.ok l)
      ∨ into_bytes_array t = Except.error Error.ParseDataFailed := by
  cases t with
  | none => exact Or.inr rfl
  | some tok =>
      cases tok with
      | array ts => exact mapExcept_ok_or_parse bytesElem bytesElem_ok_or_parse ts
      | fixedBytes bs => exact Or.inr rfl
      | uint v => exact Or.inr rfl
      | bytes bs => exact Or.inr rfl
      | other => exact Or.inr rfl

theorem decodeBatch_ok_or_parse (abiDecode : AbiDecoder) (data : Bytes) :
    (∃ d, Deposit.decodeBatch abiDecode data = Except.ok d)
      ∨ Deposit.decodeBatch abiDecode data = Except.error Error.ParseDataFailed := by
  cases habi : abiDecode Deposit.params_type data with
  | none => exact Or.inr (by unfold Deposit.decodeBatch; rw [habi])
  | some res =>
      rcases into_bytes32_array_ok_or_parse (res.get? 0) with ⟨l0, h0⟩ | h0
      · rcases into_bytes32_array_ok_or_parse (res.get? 1) with ⟨l1, h1⟩ | h1
        · rcases into_uint256_array_ok_or_parse (res.get? 2) with ⟨l2, h2⟩ | h2
          · rcases into_bytes_array_ok_or_parse (res.get? 3) with ⟨l3, h3⟩ | h3
            · rcases into_bytes_array_ok_or_parse (res.get? 4) with ⟨l4, h4⟩ | h4
              · rcases into_bytes32_array_ok_or_parse (res.get? 5) with ⟨l5, h5⟩ | h5
                · exact Or.inl ⟨⟨l0, l1, l2, l3, l4, l5⟩, by
                    unfold Deposit.decodeBatch
                    rw [habi]
                    dsimp only
                    rw [h0, h1, h2, h3, h4, h5]; rfl⟩
                · exact Or.inr (by
                    unfold Deposit.decodeBatch
                    rw [habi]
                    dsimp only
                    rw [h0, h1, h2, h3, h4, h5]; rfl)
              · exact Or.inr (by
                  unfold Deposit.decodeBatch
                  rw [habi]
                  dsimp only
                  rw [h0, h1, h2, h3, h4]; rfl)
            · exact Or.inr (by
                unfold Deposit.decodeBatch
                rw [habi]
                dsimp only
                rw [h0, h1, h2, h3]; rfl)
          · exact Or.inr (by
              unfold Deposit.decodeBatch
              rw [habi]
              dsimp only
              rw [h0, h1, h2]; rfl)
        · exact Or.inr (by
            unfold Deposit.decodeBatch
            rw [habi]
            dsimp only
            rw [h0, h1]; rfl)
      · exact Or.inr (by
          unfold Deposit.decodeBatch
          rw [habi]
          dsimp only
          rw [h0]; rfl)

theorem mapExcept_map_ok {α β : Type} (f : β → Except Error α) (g : α → β) (l : List α)
    (h : ∀ a ∈ l, f (g a) = Except.ok a) :
    mapExcept f (l.map g) = Except.ok l := by
  induction l with
  | nil => rfl
  | cons a as ih =>
      simp [mapExcept, h a (List.mem_cons_self a as),
        ih fun x hx => h x (List.mem_cons_of_mem a hx)]

theorem decodeBatch_six (abiDecode : AbiDecoder) (data : Bytes) (t0 t1 t2 t3 t4 t5 : Token)
    (habi : abiDecode Deposit.params_type data = some [t0, t1, t2, t3, t4, t5]) :
    Deposit.decodeBatch abiDecode data = (do
      let outputs ← into_bytes32_array (some t0)
      let assets ← into_bytes32_array (some t1)
      let amounts ← into_uint256_array (some t2)
      let proofs ← into_bytes_array (some t3)
      let memos ← into_bytes_array (some t4)
      let hash ← into_bytes32_array (some t5)
      Except.ok ⟨outputs, assets, amounts, proofs, memos, hash⟩) := by
  unfold Deposit.decodeBatch
  rw [habi]
  rfl

theorem into_bytes32_array_map (l : List Bytes) (hl : ∀ b ∈ l, b.length = 32) :
    into_bytes32_array (some (Token.array (l.map Token.fixedBytes))) = Except.ok l :=
  mapExcept_map_ok bytes32Elem Token.fixedBytes l fun b hb => by simp [bytes32Elem, hl b hb]

theorem into_uint256_array_map (l : List Nat) :
    into_uint256_array (some (Token.array (l.map Token.uint))) = Except.ok l :=
  mapExcept_map_ok uintElem Token.uint l fun _ _ => rfl

theorem into_bytes_array_map (l : List Bytes) :
    into_bytes_array (some (Token.array (l.map Token.bytes))) = Except.ok l :=
  mapExcept_map_ok bytesElem Token.bytes l fun _ _ => rfl

/-- C1: the claim demands that an `amount_i` not fitting `u128` makes
verification of request `i` (and the batch) fail with a
`VerificationError` and that the verifier never panics on such an amount;
the code instead calls `U256::as_u128`, whose explicit panic propagates
out of `Deposit::check` (modelled as `none`): the batch decodes fine, its
lengths validate, yet `check` neither succeeds nor returns any error. -/
theorem check_panics_on_amount_overflow :
    Deposit.new overflowAbi [] = Except.ok overflowBatch
      ∧ U256.as_u128 (2 ^ 128) = none
      ∧ Deposit.check testModel () overflowBatch = none := by
  refine ⟨rfl, ?_, rfl⟩
  simp [U256.as_u128]

/-- C2: `check` succeeds exactly when every per-request verification
succeeds; a batch of size 0 trivially succeeds; and when every dispatched
task completes (no `as_u128` panic) and at least one request fails, the
batch check reports an error. -/
theorem check_ok_iff_all_verify (C : CryptoModel) (params : C.Params) (d : Deposit) :
    (d.check C params = some (Except.ok ()) ↔
        ∀ r ∈ d.requests, verifyRequest C params r = some (Except.ok ()))
      ∧ (d.outputs = [] → d.check C params = some (Except.ok ()))
      ∧ ((∀ r ∈ d.requests, verifyRequest C params r ≠ none) →
          (∃ r ∈ d.requests, verifyRequest C params r ≠ some (Except.ok ())) →
          ∃ e, d.check C params = some (Except.error e)) := by
  refine ⟨runChecks_ok_iff C params d.requests, ?_, ?_⟩
  · intro h
    unfold Deposit.check Deposit.requests
    rw [h]
    rfl
  · rintro hnp ⟨r, hr, hne⟩
    obtain ⟨res, hres⟩ := collectResults_isSome hnp
    cases hfe : firstError res with
    | ok u =>
        cases u
        have hok : runChecks C params d.requests = some (Except.ok ()) := by
          unfold runChecks
          rw [hres]
          dsimp only
          rw [hfe]
        exact absurd ((runChecks_ok_iff C params d.requests).mp hok r hr) hne
    | error e =>
        refine ⟨e, ?_⟩
        unfold Deposit.check runChecks
        rw [hres]
        dsimp only
        rw [hfe]

/-- Witness for C2 at a concrete empty batch. -/
theorem check_ok_iff_all_verify_witness :
    Deposit.check testModel () ⟨[], [], [], [], [], []⟩ = some (Except.ok ()) :=
  (check_ok_iff_all_verify testModel () ⟨[], [], [], [], [], []⟩).2.1 rfl

/-- C3: for a batch passing the length validation, `gas` is exactly
`50000 * N` where `N` is the batch size, whether or not `check` was ever
invoked (`gas` reads only the decoded lengths); concretely 0, 50000 and
100000 for sizes 0, 1 and 2. -/
theorem gas_is_50000_per_request (d : Deposit) (n : Nat)
    (hreq : d.require = Except.ok ()) (hn : d.outputs.length = n)
    (hbound : DEPOSIT_VERIFY_PER_GAS * n < 2 ^ 64) :
    d.gas = 50000 * n ∧ (n = 0 → d.gas = 0) ∧ (n = 1 → d.gas = 50000)
      ∧ (n = 2 → d.gas = 100000) := by
  have hlen := (require_ok_iff d).mp hreq
  have hassets : d.assets.length = n := hlen.1.symm.trans hn
  have hg : d.gas = 50000 * n := by
    unfold Deposit.gas DEPOSIT_VERIFY_PER_GAS
    rw [hassets]
    exact Nat.mod_eq_of_lt (by simpa [DEPOSIT_VERIFY_PER_GAS] using hbound)
  refine ⟨hg, ?_, ?_, ?_⟩ <;> intro h <;> subst h <;> simpa using hg

/-- Witness for C3 at a concrete one-request batch. -/
theorem gas_is_50000_per_request_witness :
    Deposit.gas ⟨[[2]], [[2]], [5], [[2]], [[2]], [[2]]⟩ = 50000 :=
  (gas_is_50000_per_request ⟨[[2]], [[2]], [5], [[2]], [[2]], [[2]]⟩ 1
    (by rfl) (by rfl) (by decide)).2.2.1 rfl

/-- C4: the length validation succeeds exactly when all six sequences
share the length of `outputs` (so any size `N ≥ 0` with equal lengths
passes, the empty batch included), and every other batch fails with
`WrongLengthOfArguments` and nothing else. -/
theorem require_validates_lengths (d : Deposit) :
    (d.require = Except.ok () ↔
        (d.outputs.length = d.assets.length ∧ d.outputs.length = d.amounts.length
          ∧ d.outputs.length = d.proofs.length ∧ d.outputs.length = d.memos.length
          ∧ d.outputs.length = d.hash.length))
      ∧ (d.require = Except.ok ()
          ∨ d.require = Except.error Error.WrongLengthOfArguments) := by
  refine ⟨require_ok_iff d, ?_⟩
  cases hreq : d.require with
  | ok u => cases u; exact Or.inl rfl
  | error e =>
      have h2 := require_error_eq d e hreq
      subst h2
      exact Or.inr rfl

/-- Witness for C4 at a concrete batch with a short sequence. -/
theorem require_validates_lengths_witness :
    Deposit.require ⟨[[2]], [[3]], [4], [[5]], [[6]], [[7]]⟩ = Except.ok ()
      ∧ ¬(Deposit.require ⟨[[2]], [], [4], [[5]], [[6]], [[7]]⟩ = Except.ok ()) :=
  ⟨(require_validates_lengths ⟨[[2]], [[3]], [4], [[5]], [[6]], [[7]]⟩).1.mpr (by decide),
   fun h => by simpa using (require_validates_lengths ⟨[[2]], [], [4], [[5]], [[6]], [[7]]⟩).1.mp h⟩

/-- C5: the decode stage either returns a batch or fails with
`ParseError`, for every behaviour of the opaque ABI decoder and every
input buffer (the model is total, so no panic or out-of-bounds read
exists); and the full entry point `Deposit::new` only ever fails with
`ParseError` or, from the subsequent length validation,
`WrongLengthOfArguments`. -/
theorem decode_ok_or_parse_error (abiDecode : AbiDecoder) (data : Bytes) :
    ((∃ d, Deposit.decodeBatch abiDecode data = Except.ok d)
        ∨ Deposit.decodeBatch abiDecode data = Except.error Error.ParseDataFailed)
      ∧ (∀ e, Deposit.new abiDecode data = Except.error e →
          e = Error.ParseDataFailed ∨ e = Error.WrongLengthOfArguments) := by
  refine ⟨decodeBatch_ok_or_parse abiDecode data, ?_⟩
  intro e he
  rcases decodeBatch_ok_or_parse abiDecode data with ⟨d, hd⟩ | hd
  · unfold Deposit.new at he
    rw [hd] at he
    simp only [exceptOkBind] at he
    cases hreq : d.require with
    | ok u =>
        cases u
        rw [hreq] at he
        simp at he
    | error e2 =>
        rw [hreq] at he
        simp only [exceptErrorBind, Except.error.injEq] at he
        exact Or.inr (he ▸ require_error_eq d e2 hreq)
  · unfold Deposit.new at he
    rw [hd] at he
    simp only [exceptErrorBind, Except.error.injEq] at he
    exact Or.inl he.symm

/-- Witness for C5 at a concrete always-failing ABI decoder. -/
theorem decode_ok_or_parse_error_witness :
    Deposit.new (fun _ _ => none) [] = Except.error Error.ParseDataFailed
      ∧ (Error.ParseDataFailed = Error.ParseDataFailed
          ∨ Error.ParseDataFailed = Error.WrongLengthOfArguments) :=
  ⟨rfl, (decode_ok_or_parse_error (fun _ _ => none) []).2 Error.ParseDataFailed rfl⟩

/-- C6: if the request sequence splits as `pre ++ r :: suf` with every
request before `r` passing and `r` failing with `e`, then `check` returns
exactly `e` (the error of the lowest failing index), provided every
dispatched task completes; and the work after the failing request is not
cancelled: a panic in a later task still decides the outcome of the whole
collect. -/
theorem check_returns_first_failing_error (C : CryptoModel) (params : C.Params) (d : Deposit)
    (pre suf : List Request) (r : Request) (e : Error)
    (hsplit : d.requests = pre ++ r :: suf)
    (hpre : ∀ x ∈ pre, verifyRequest C params x = some (Except.ok ()))
    (hr : verifyRequest C params r = some (Except.error e)) :
    ((∀ x ∈ suf, verifyRequest C params x ≠ none) →
        d.check C params = some (Except.error e))
      ∧ (∀ x ∈ suf, verifyRequest C params x = none → d.check C params = none) := by
  constructor
  · intro hsuf
    unfold Deposit.check
    rw [hsplit]
    exact runChecks_first_error C params pre suf r e hpre hr hsuf
  · intro x hx hfx
    unfold Deposit.check runChecks
    rw [hsplit]
    rw [collectResults_none_of_mem x (by simp [hx]) hfx]

/-- Witness for C6: a two-request batch where the first request fails
with `ProofDecodeFailed` and the second with `ProofVerificationFailed`;
`check` reports the first. -/
theorem check_returns_first_failing_error_witness :
    Deposit.check testModel () ⟨[[2], [3]], [[2], [3]], [5, 7], [[0], [2]], [[4], [4]], [[2], [3]]⟩
      = some (Except.error Error.ProofDecodeFailed) := by
  refine (check_returns_first_failing_error testModel ()
    ⟨[[2], [3]], [[2], [3]], [5, 7], [[0], [2]], [[4], [4]], [[2], [3]]⟩
    [] [(((([3], [3]), 7), [2]), [3])] (((([2], [2]), 5), [0]), [2])
    Error.ProofDecodeFailed rfl (by simp) rfl).1 ?_
  intro x hx
  rcases List.mem_singleton.mp hx with rfl
  have hv : verifyRequest testModel () (((([3], [3]), 7), [2]), [3])
      = some (Except.error Error.ProofVerificationFailed) := rfl
  simp [hv]

/-- C7: `check` never consults the memo sequence: two batches agreeing on
the other five sequences (memo lists of equal length) give the same
result, because the zipped request stream omits `memos` and the note is
built with the empty-memo placeholder. -/
theorem check_independent_of_memos (C : CryptoModel) (params : C.Params) (d1 d2 : Deposit)
    (houts : d1.outputs = d2.outputs) (hassets : d1.assets = d2.assets)
    (hamts : d1.amounts = d2.amounts) (hprfs : d1.proofs = d2.proofs)
    (hhsh : d1.hash = d2.hash) (hmlen : d1.memos.length = d2.memos.length) :
    d1.check C params = d2.check C params := by
  unfold Deposit.check Deposit.requests
  rw [houts, hassets, hamts, hprfs, hhsh]

/-- Witness for C7: two one-request batches differing only in memo bytes. -/
theorem check_independent_of_memos_witness :
    Deposit.check testModel () ⟨[[2]], [[2]], [5], [[2]], [[9]], [[2]]⟩
        = Deposit.check testModel () ⟨[[2]], [[2]], [5], [[2]], [[8]], [[2]]⟩
      ∧ ([[9]] : List Bytes) ≠ [[8]] :=
  ⟨check_independent_of_memos testModel ()
      ⟨[[2]], [[2]], [5], [[2]], [[9]], [[2]]⟩ ⟨[[2]], [[2]], [5], [[2]], [[8]], [[2]]⟩
      rfl rfl rfl rfl rfl rfl,
   by decide⟩

/-- C8: for every batch whose amounts all fit `u128` (so no task
panics), the parallel collect-then-reduce of `Deposit::check` equals the
sequential in-order evaluation of the per-request verifier. -/
theorem check_parallel_eq_sequential (C : CryptoModel) (params : C.Params) (d : Deposit)
    (hamt : ∀ a ∈ d.amounts, a < 2 ^ 128) :
    d.check C params = checkSequential C params d.requests :=
  runChecks_eq_sequential C params d.requests (verifyRequest_ne_none_of_amounts C params d hamt)

/-- Witness for C8 at a concrete one-request batch. -/
theorem check_parallel_eq_sequential_witness :
    Deposit.check testModel () ⟨[[2]], [[2]], [5], [[2]], [[4]], [[2]]⟩
      = checkSequential testModel ()
          (Deposit.requests ⟨[[2]], [[2]], [5], [[2]], [[4]], [[2]]⟩) :=
  check_parallel_eq_sequential testModel () ⟨[[2]], [[2]], [5], [[2]], [[4]], [[2]]⟩ (by decide)

/-- C9: per-request failure causes map to exactly one stable error kind:
commitment bytes that do not decode give `ParseDataFailed`, proof bytes
that do not deserialize give `ProofDecodeFailed`, and an oracle reject or
internal fault gives `ProofVerificationFailed` (the error type carries no
payload, so no oracle diagnostic can cross the boundary). -/
theorem verify_ttoa_error_classes (C : CryptoModel) (params : C.Params)
    (asset : Bytes) (amount : Nat) (commitment proof hash : Bytes) :
    (C.scalarFromBytes commitment = none →
        verify_ttoa C params asset amount commitment proof hash
          = Except.error Error.ParseDataFailed)
      ∧ (∀ s, C.scalarFromBytes commitment = some s → C.proofDeserialize proof = none →
          verify_ttoa C params asset amount commitment proof hash
            = Except.error Error.ProofDecodeFailed)
      ∧ (∀ s p a, C.scalarFromBytes commitment = some s → C.proofDeserialize proof = some p →
          C.bytesAsset asset = Except.ok a →
          C.verifyNote params a amount s p (C.memoFromBytes []) hash = false →
          verify_ttoa C params asset amount commitment proof hash
            = Except.error Error.ProofVerificationFailed) := by
  refine ⟨?_, ?_, ?_⟩
  · intro h
    unfold verify_ttoa
    rw [h]
    rfl
  · intro s hs hp
    unfold verify_ttoa
    rw [hs, hp]
    rfl
  · intro s p a hs hp ha hv
    unfold verify_ttoa
    rw [hs, hp, ha]
    show (if verify_ar_to_abar_note C params ⟨a, amount, s, p, C.memoFromBytes []⟩ hash = true
        then Except.ok () else Except.error Error.ProofVerificationFailed)
      = Except.error Error.ProofVerificationFailed
    simp [verify_ar_to_abar_note, hv]

/-- Witness for C9 at concrete inputs of the test model exercising each
of the three failure classes. -/
theorem verify_ttoa_error_classes_witness :
    verify_ttoa testModel () [2] 5 [] [2] [3] = Except.error Error.ParseDataFailed
      ∧ verify_ttoa testModel () [2] 5 [2] [0] [3] = Except.error Error.ProofDecodeFailed
      ∧ verify_ttoa testModel () [2] 7 [2] [2] [3]
          = Except.error Error.ProofVerificationFailed :=
  ⟨(verify_ttoa_error_classes testModel () [2] 5 [] [2] [3]).1 rfl,
   (verify_ttoa_error_classes testModel () [2] 5 [2] [0] [3]).2.1 () rfl rfl,
   (verify_ttoa_error_classes testModel () [2] 7 [2] [2] [3]).2.2 () () () rfl rfl rfl rfl⟩

/-- C10: the decode stage imposes no 128-bit bound on amounts: any
well-shaped six-array payload with equal lengths decodes into a batch
carrying the amount values unchanged (up to the full 256-bit decoded
width), passes the length validation inside `Deposit::new`, and yields
`gas = 50000 * N`; the `u128` restriction only surfaces inside `check`. -/
theorem decode_accepts_wide_amounts (abiDecode : AbiDecoder) (data : Bytes)
    (outs assets prfs mms hsh : List Bytes) (amts : List Nat)
    (hassets : assets.length = outs.length) (hamts : amts.length = outs.length)
    (hprfs : prfs.length = outs.length) (hmms : mms.length = outs.length)
    (hhsh : hsh.length = outs.length)
    (houts32 : ∀ b ∈ outs, b.length = 32) (hassets32 : ∀ b ∈ assets, b.length = 32)
    (hhsh32 : ∀ b ∈ hsh, b.length = 32)
    (hwide : ∀ v ∈ amts, v < 2 ^ 256)
    (habi : abiDecode Deposit.params_type data =
      some [Token.array (outs.map Token.fixedBytes),
            Token.array (assets.map Token.fixedBytes),
            Token.array (amts.map Token.uint),
            Token.array (prfs.map Token.bytes),
            Token.array (mms.map Token.bytes),
            Token.array (hsh.map Token.fixedBytes)])
    (hbound : DEPOSIT_VERIFY_PER_GAS * outs.length < 2 ^ 64) :
    Deposit.new abiDecode data = Except.ok ⟨outs, assets, amts, prfs, mms, hsh⟩
      ∧ Deposit.gas ⟨outs, assets, amts, prfs, mms, hsh⟩ = 50000 * outs.length := by
  have hdec : Deposit.decodeBatch abiDecode data
      = Except.ok ⟨outs, assets, amts, prfs, mms, hsh⟩ := by
    rw [decodeBatch_six abiDecode data _ _ _ _ _ _ habi]
    rw [into_bytes32_array_map outs houts32, into_bytes32_array_map assets hassets32,
      into_uint256_array_map amts, into_bytes_array_map prfs, into_bytes_array_map mms,
      into_bytes32_array_map hsh hhsh32]
    rfl
  have hreq : Deposit.require ⟨outs, assets, amts, prfs, mms, hsh⟩ = Except.ok () :=
    (require_ok_iff ⟨outs, assets, amts, prfs, mms, hsh⟩).mpr
      ⟨hassets.symm, hamts.symm, hprfs.symm, hmms.symm, hhsh.symm⟩
  constructor
  · unfold Deposit.new
    rw [hdec]
    simp only [exceptOkBind]
    rw [hreq]
    rfl
  · unfold Deposit.gas DEPOSIT_VERIFY_PER_GAS
    dsimp only
    rw [hassets]
    exact Nat.mod_eq_of_lt (by simpa [DEPOSIT_VERIFY_PER_GAS] using hbound)

/-- Witness for C10: the single-request payload whose amount is `2 ^ 128`
decodes successfully and is billed `50000`. -/
theorem decode_accepts_wide_amounts_witness :
    Deposit.new overflowAbi []
        = Except.ok ⟨[zeroWord], [zeroWord], [2 ^ 128], [[2]], [[3]], [zeroWord]⟩
      ∧ Deposit.gas ⟨[zeroWord], [zeroWord], [2 ^ 128], [[2]], [[3]], [zeroWord]⟩
          = 50000 * 1 :=
  decode_accepts_wide_amounts overflowAbi [] [zeroWord] [zeroWord] [[2]] [[3]] [zeroWord]
    [2 ^ 128] rfl rfl rfl rfl rfl (by decide) (by decide) (by decide) (by decide) rfl (by decide)
